import Mathlib

/-!
Verification of the Habitica API client (`internal/client/client.go`,
`internal/client/types.go`): request execution with retry/backoff, rate-limit
header bookkeeping, the per-entity read-through caches, and client construction.
The Go code is shallowly embedded: machine integers become `Int` (with explicit
64-bit wrapping where Go overflow semantics matter), `time.Time`/`time.Duration`
values become `Int` (Unix seconds resp. nanoseconds), fallible operations return
`Except`/`Option`, and the network is an explicit oracle of attempt outcomes.
-/

/-- Tag record (`types.go`): `{ID string; Name string}`. -/
structure Tag where
  id : String
  name : String
deriving DecidableEq, Repr

/-- Task record (`types.go`). Of its JSON fields, the client logic being
verified (cache keying, population, invalidation) inspects only `ID`; the
payload fields `Type` and `Text` are carried as representatives and the
remaining optional fields are never inspected by any verified operation. -/
structure TaskRec where
  id : String
  ttype : String
  text : String
deriving DecidableEq, Repr

/-- Model of a response body (`respBody []byte`) together with the outcome of
each `json.Unmarshal` target the client applies to it. `envMessage = some m`
means unmarshaling into `APIResponse[any]` succeeded with `Message` field `m`
(Go yields `""` when the JSON key is absent); `none` means unmarshaling
returned an error. The `as*` fields model unmarshaling `Data` into the
corresponding typed envelope (`none` = unmarshal error). -/
structure Body where
  raw : String
  envMessage : Option String
  asTag : Option Tag
  asTags : Option (List Tag)
  asTask : Option TaskRec
  asTasks : Option (List TaskRec)
deriving DecidableEq, Repr

/-- Decimal digit run to a natural number. -/
def digitsVal (cs : List Char) : Nat :=
  cs.foldl (fun a c => a * 10 + (c.toNat - ('0').toNat)) 0

/-- Go `strconv.ParseInt(s, 10, 64)` (and `strconv.Atoi` on a 64-bit platform):
an optional sign followed by a nonempty run of ASCII digits, value within the
signed 64-bit range; anything else (including the empty string, which
`Header.Get` returns for an absent header) is a parse error. On a range error
Go returns a non-nil error, so the caller treats it as a failure. -/
def goParseInt64 (s : String) : Option Int :=
  let cs := s.toList
  let signed : Bool × List Char :=
    match cs with
    | '-' :: rest => (true, rest)
    | '+' :: rest => (false, rest)
    | rest => (false, rest)
  let neg := signed.1
  let ds := signed.2
  if ds.isEmpty then none
  else if ds.all Char.isDigit then
    let v : Int := if neg then -(digitsVal ds : Int) else (digitsVal ds : Int)
    if -(2 ^ 63) ≤ v ∧ v ≤ 2 ^ 63 - 1 then some v else none
  else none

/-- Rate Governor state (`client.go` fields `rateLimitRemaining`,
`rateLimitReset`); `resetAt` is the Unix-seconds timestamp stored by
`time.Unix(ts, 0)`. -/
structure RateState where
  remaining : Int
  resetAt : Int
deriving DecidableEq, Repr

/-- Embedding of `updateRateLimits` (`client.go` lines 181-196): each header is
the string `Header.Get` returns (`""` when absent); a header that is non-empty
and parses as an integer overwrites the corresponding field, anything else
leaves it unchanged. The function is total: a malformed header never fails the
request. -/
def updateRateLimits (rs : RateState) (hdrRemaining hdrReset : String) : RateState :=
  let rs1 :=
    if hdrRemaining ≠ "" then
      match goParseInt64 hdrRemaining with
      | some v => { rs with remaining := v }
      | none => rs
    else rs
  if hdrReset ≠ "" then
    match goParseInt64 hdrReset with
    | some ts => { rs1 with resetAt := ts }
    | none => rs1
  else rs1

/-- Error text built by `do` for a non-429 status `>= 400` (`client.go` lines
167-173): if the body unmarshals as the envelope with a non-empty `Message`,
use it, otherwise fall back to the raw body text. -/
def apiErrorText (status : Nat) (b : Body) : String :=
  match b.envMessage with
  | some m =>
      if m ≠ "" then "API error (" ++ toString status ++ "): " ++ m
      else "API error (" ++ toString status ++ "): " ++ b.raw
  | none => "API error (" ++ toString status ++ "): " ++ b.raw

/-- Fixed origin `DefaultBaseURL` (`client.go` line 16). -/
def DefaultBaseURL : String := "https://habitica.com/api/v3"

/-- Default rate-limit buffer (`client.go` line 17). -/
def DefaultRateLimitBuf : Int := 5

/-- Default retry count (`client.go` line 18). -/
def DefaultMaxRetries : Int := 5

/-- Default base retry delay in nanoseconds, `2 * time.Second` (`client.go`
line 19). -/
def DefaultRetryDelay : Int := 2000000000

/-- The `Config` struct (`client.go` lines 47-55), exactly its fields: it has
no base-URL field. Durations are nanosecond counts. -/
structure Config where
  UserID : String
  APIKey : String
  ClientAuthorID : String
  ClientAppName : String
  RateLimitBuffer : Int
  MaxRetries : Int
  BaseRetryDelay : Int
deriving DecidableEq, Repr

/-- The client fields assigned by `New` (`client.go` lines 79-89); the
zero-valued `rateLimitReset` and the mutable caches start at their zero
values and are modelled where used. -/
structure Client where
  baseURL : String
  userID : String
  apiKey : String
  clientID : String
  rateLimitBuffer : Int
  maxRetries : Int
  baseRetryDelay : Int
  rateLimitRemaining : Int
deriving DecidableEq, Repr

/-- Embedding of `New` (`client.go` lines 58-90): defaults the app name,
buffer, retry count and delay, builds the `x-client` value as
`{authorID}-{appName}`, and always assigns `DefaultBaseURL` to `baseURL` —
`Config` offers no override. -/
def New (cfg : Config) : Client :=
  let appName := if cfg.ClientAppName = "" then "TerraformHabitica" else cfg.ClientAppName
  let rateLimitBuffer := if cfg.RateLimitBuffer ≤ 0 then DefaultRateLimitBuf else cfg.RateLimitBuffer
  let maxRetries := if cfg.MaxRetries ≤ 0 then DefaultMaxRetries else cfg.MaxRetries
  let baseRetryDelay := if cfg.BaseRetryDelay ≤ 0 then DefaultRetryDelay else cfg.BaseRetryDelay
  { baseURL := DefaultBaseURL
    userID := cfg.UserID
    apiKey := cfg.APIKey
    clientID := cfg.ClientAuthorID ++ "-" ++ appName
    rateLimitBuffer := rateLimitBuffer
    maxRetries := maxRetries
    baseRetryDelay := baseRetryDelay
    rateLimitRemaining := 30 }

/-- Wrap an integer into the signed 64-bit range (Go arithmetic on `int` /
`time.Duration` values). -/
def wrap64 (x : Int) : Int := (x + 2 ^ 63) % 2 ^ 64 - 2 ^ 63

/-- Go `1 << n` at type `int64`: shifts of 64 or more produce 0, smaller
shifts wrap. -/
def goShl1 (n : Nat) : Int := if n < 64 then wrap64 (2 ^ n) else 0

/-- Backoff delay before attempt `attempt ≥ 1` (`client.go` line 106):
`c.baseRetryDelay * time.Duration(1<<(attempt-1))`, with Go's wrapping
multiplication. -/
def backoffDelay (base : Int) (attempt : Nat) : Int :=
  wrap64 (base * goShl1 (attempt - 1))

/-- Response seen by one attempt: status, body bytes, and the two rate-limit
headers as returned by `Header.Get` (`""` = absent). -/
structure HttpResponse where
  status : Nat
  body : Body
  hdrRemaining : String
  hdrReset : String
deriving DecidableEq, Repr

/-- Outcome of one network attempt inside `do`: `transportErr` models a
non-nil error from `httpClient.Do` (no headers observed), `readErr` a failure
of `io.ReadAll` after a response arrived (headers were already consumed by
`updateRateLimits`), and `ok` a fully read response. -/
inductive AttemptOutcome where
  | transportErr (msg : String)
  | readErr (msg : String) (resp : HttpResponse)
  | ok (resp : HttpResponse)
deriving DecidableEq, Repr

/-- Environment of one iteration of the `do` loop: `now` is `time.Now()` at
the rate check (Unix seconds); `cancelBeforeDelay d` tells whether
`ctx.Done()` is ready before a `time.After(d)` timer in the backoff `select`;
`cancelRateWait` likewise for the rate-limit wait; `outcome` is the network's
answer if the attempt is performed. -/
structure AttemptEnv where
  now : Int
  cancelBeforeDelay : Int → Bool
  cancelRateWait : Bool
  outcome : AttemptOutcome

/-- The retryable failures `do` records in `lastErr`: a transport error, a
body-read error, or the literal `rate limited (429)` error. -/
inductive RetryableErr where
  | transport (msg : String)
  | readBody (msg : String)
  | rateLimited
deriving DecidableEq, Repr

/-- Errors `do` can return: `ctx.Err()` from a cancelled wait, a terminal API
error for a non-429 status `>= 400`, or the final `max retries exceeded`
error wrapping the last recorded failure. -/
inductive DoError where
  | ctxCancelled
  | apiError (status : Nat) (text : String)
  | maxRetriesExceeded (last : Option RetryableErr)
deriving DecidableEq, Repr

/-- Result of a run of the `do` loop: the returned value, the number of
network attempts actually performed, and the final rate-limit state. -/
structure DoOut where
  result : Except DoError Body
  attempts : Nat
  rate : RateState
deriving Repr

/-- Configuration consumed by the `do` loop: `rateLimitBuffer`, `maxRetries`
and `baseRetryDelay` of the client (all positive after `New`). -/
structure DoCfg where
  rateLimitBuffer : Int
  maxRetries : Nat
  baseRetryDelay : Int
deriving DecidableEq, Repr

/-- Body of the `do` retry loop (`client.go` lines 104-176), one constructor
per iteration, recursing on the remaining fuel (`maxRetries + 1 - attempt`).
Per iteration, in source order: for `attempt > 0` the backoff `select`
(cancellation wins ⇒ return `ctx.Err()`); the rate-limit gate
(`remaining < buffer && now < resetAt`) whose wait may likewise be cancelled;
then the attempt itself: a transport error is recorded and retried; on a
response the headers update the rate state, then a 429 is recorded and
retried, a non-429 status `>= 400` returns the terminal API error, and
anything below 400 returns the body. Exhausted fuel returns the
`max retries exceeded` error wrapping `lastErr`. -/
def doLoop (cfg : DoCfg) (env : Nat → AttemptEnv) (attempt : Nat) (fuel : Nat)
    (lastErr : Option RetryableErr) (rs : RateState) : DoOut :=
  match fuel with
  | 0 => ⟨.error (.maxRetriesExceeded lastErr), 0, rs⟩
  | f + 1 =>
    let e := env attempt
    if 0 < attempt ∧ e.cancelBeforeDelay (backoffDelay cfg.baseRetryDelay attempt) = true then
      ⟨.error .ctxCancelled, 0, rs⟩
    else if rs.remaining < cfg.rateLimitBuffer ∧ e.now < rs.resetAt ∧ e.cancelRateWait = true then
      ⟨.error .ctxCancelled, 0, rs⟩
    else
      match e.outcome with
      | .transportErr m =>
          let r := doLoop cfg env (attempt + 1) f (some (.transport m)) rs
          ⟨r.result, r.attempts + 1, r.rate⟩
      | .readErr m resp =>
          let rs2 := updateRateLimits rs resp.hdrRemaining resp.hdrReset
          let r := doLoop cfg env (attempt + 1) f (some (.readBody m)) rs2
          ⟨r.result, r.attempts + 1, r.rate⟩
      | .ok resp =>
          let rs2 := updateRateLimits rs resp.hdrRemaining resp.hdrReset
          if resp.status = 429 then
            let r := doLoop cfg env (attempt + 1) f (some .rateLimited) rs2
            ⟨r.result, r.attempts + 1, r.rate⟩
          else if 400 ≤ resp.status then
            ⟨.error (.apiError resp.status (apiErrorText resp.status resp.body)), 1, rs2⟩
          else
            ⟨.ok resp.body, 1, rs2⟩

/-- The full `do` call: the loop from attempt 0 with `maxRetries + 1` fuel,
no recorded failure, and the client's current rate state. -/
def doRequest (cfg : DoCfg) (env : Nat → AttemptEnv) (rs : RateState) : DoOut :=
  doLoop cfg env 0 (cfg.maxRetries + 1) none rs

/-- Classify an attempt outcome as the retryable failure `do` would record
for it, if any: transport errors, read errors, and 429 responses. -/
def classifyRetryable : AttemptOutcome → Option RetryableErr
  | .transportErr m => some (.transport m)
  | .readErr m _ => some (.readBody m)
  | .ok resp => if resp.status = 429 then some .rateLimited else none

/-- An iteration environment in which the caller's context never fires at a
wait point. -/
def noCancel (e : AttemptEnv) : Prop :=
  (∀ d, e.cancelBeforeDelay d = false) ∧ e.cancelRateWait = false

/-- The `lastErr` value held after running `fuel` further all-retryable
iterations starting at `attempt`, given the value held on entry. -/
def lastRetryErr (env : Nat → AttemptEnv) (attempt fuel : Nat)
    (lastErr : Option RetryableErr) : Option RetryableErr :=
  match fuel with
  | 0 => lastErr
  | f + 1 => classifyRetryable (env (attempt + f)).outcome

/-- The tag cache contents: Go's `map[string]*Tag` as an association list in
which later insertions shadow earlier ones (lookup finds the first entry of
the reversed insertion order, matching map overwrite). -/
abbrev TagMap := List (String × Tag)

/-- The task cache contents, under the same representation. -/
abbrev TaskMap := List (String × TaskRec)

/-- Cache built by `populateTagCache` from a fetched tag list:
`cache[data[i].ID] = &data[i]` for each index in order, so a duplicated ID
keeps the later element. -/
def buildTagMap (tags : List Tag) : TagMap :=
  (tags.map (fun t => (t.id, t))).reverse

/-- Cache built by `populateTaskCache` from a fetched task list. -/
def buildTaskMap (tasks : List TaskRec) : TaskMap :=
  (tasks.map (fun t => (t.id, t))).reverse

/-- Map lookup `m[id]` on the association-list representation. -/
def lookupTag (m : TagMap) (id : String) : Option Tag :=
  (m.find? (fun p => p.1 == id)).map (fun p => p.2)

/-- Map lookup `m[id]` for the task cache. -/
def lookupTask (m : TaskMap) (id : String) : Option TaskRec :=
  (m.find? (fun p => p.1 == id)).map (fun p => p.2)

/-- The two entity caches of the client (`taskCache`, `tagCache`); `none` is
the Go nil map, "not yet populated", distinct from `some []`. The locks
serialize the operations, so the sequential small-step semantics below is the
behaviour any interleaving of lock-holding critical sections produces. -/
structure Caches where
  tagCache : Option TagMap
  taskCache : Option TaskMap
deriving DecidableEq, Repr

/-- Errors of the cache-backed facade operations: an error propagated from
`do` (via `Get`/`Post`/`Put`/`Delete`), an `unmarshaling response` error, or
the local `not found` error naming the entity kind and id. -/
inductive OpError where
  | doErr (e : DoError)
  | unmarshalErr
  | notFound (kind : String) (id : String)
deriving Repr

/-- Embedding of `invalidateTagCache` (`client.go` lines 318-322). -/
def invalidateTagCache (st : Caches) : Caches := { st with tagCache := none }

/-- Embedding of `invalidateTaskCache` (`client.go` lines 422-426). -/
def invalidateTaskCache (st : Caches) : Caches := { st with taskCache := none }

/-- Embedding of `populateTagCache` (`client.go` lines 265-290). Under the
exclusive lock: if the cache is already non-nil another caller populated it,
so return with no network call (the double check); otherwise perform the one
bulk `GET /tags` (modelled by `fetch`, counted in the third component),
propagate its failure, propagate an unmarshal failure, and otherwise publish
the freshly built map. -/
def populateTagCache (st : Caches) (fetch : Except DoError Body) :
    Except OpError Unit × Caches × Nat :=
  match st.tagCache with
  | some _ => (.ok (), st, 0)
  | none =>
    match fetch with
    | .error e => (.error (.doErr e), st, 1)
    | .ok body =>
      match body.asTags with
      | none => (.error .unmarshalErr, st, 1)
      | some tags => (.ok (), { st with tagCache := some (buildTagMap tags) }, 1)

/-- Embedding of `populateTaskCache` (`client.go` lines 370-395), identically
structured over `GET /tasks/user`. -/
def populateTaskCache (st : Caches) (fetch : Except DoError Body) :
    Except OpError Unit × Caches × Nat :=
  match st.taskCache with
  | some _ => (.ok (), st, 0)
  | none =>
    match fetch with
    | .error e => (.error (.doErr e), st, 1)
    | .ok body =>
      match body.asTasks with
      | none => (.error .unmarshalErr, st, 1)
      | some tasks => (.ok (), { st with taskCache := some (buildTaskMap tasks) }, 1)

/-- Embedding of `GetTag` (`client.go` lines 238-262): read-locked cache
check (nil cache or absent id both miss), then `populateTagCache`, whose
error is returned as-is; then the re-check under the read lock, returning
`tag not found: id` only if the id is still absent. The `Nat` component
counts bulk-list network calls performed by this call. -/
def GetTag (st : Caches) (fetch : Except DoError Body) (id : String) :
    Except OpError Tag × Caches × Nat :=
  let hit : Option Tag :=
    match st.tagCache with
    | some m => lookupTag m id
    | none => none
  match hit with
  | some t => (.ok t, st, 0)
  | none =>
    let pr := populateTagCache st fetch
    match pr.1 with
    | .error e => (.error e, pr.2.1, pr.2.2)
    | .ok _ =>
      let hit2 : Option Tag :=
        match pr.2.1.tagCache with
        | some m => lookupTag m id
        | none => none
      match hit2 with
      | some t => (.ok t, pr.2.1, pr.2.2)
      | none => (.error (.notFound "tag" id), pr.2.1, pr.2.2)

/-- Embedding of `GetTask` (`client.go` lines 343-367), identically
structured. -/
def GetTask (st : Caches) (fetch : Except DoError Body) (id : String) :
    Except OpError TaskRec × Caches × Nat :=
  let hit : Option TaskRec :=
    match st.taskCache with
    | some m => lookupTask m id
    | none => none
  match hit with
  | some t => (.ok t, st, 0)
  | none =>
    let pr := populateTaskCache st fetch
    match pr.1 with
    | .error e => (.error e, pr.2.1, pr.2.2)
    | .ok _ =>
      let hit2 : Option TaskRec :=
        match pr.2.1.taskCache with
        | some m => lookupTask m id
        | none => none
      match hit2 with
      | some t => (.ok t, pr.2.1, pr.2.2)
      | none => (.error (.notFound "task" id), pr.2.1, pr.2.2)

/-- Embedding of `CreateTag` (`client.go` lines 221-235): `resp` is the
result of `POST /tags` with body `{"name": name}`; a request error is
returned unchanged, an envelope unmarshal failure returns the unmarshal
error with the cache untouched, and only on a successful decode is
`invalidateTagCache` run before returning the decoded tag. -/
def CreateTag (st : Caches) (resp : Except DoError Body) (_name : String) :
    Except OpError Tag × Caches :=
  match resp with
  | .error e => (.error (.doErr e), st)
  | .ok body =>
    match body.asTag with
    | none => (.error .unmarshalErr, st)
    | some t => (.ok t, invalidateTagCache st)

/-- Embedding of `UpdateTag` (`client.go` lines 293-307) over
`PUT /tags/{id}`, same structure as `CreateTag`. -/
def UpdateTag (st : Caches) (resp : Except DoError Body) (_id _name : String) :
    Except OpError Tag × Caches :=
  match resp with
  | .error e => (.error (.doErr e), st)
  | .ok body =>
    match body.asTag with
    | none => (.error .unmarshalErr, st)
    | some t => (.ok t, invalidateTagCache st)

/-- Embedding of `DeleteTag` (`client.go` lines 310-316) over
`DELETE /tags/{id}`: no decoding; the cache is invalidated exactly when the
request succeeded. -/
def DeleteTag (st : Caches) (resp : Except DoError Body) (_id : String) :
    Except OpError Unit × Caches :=
  match resp with
  | .error e => (.error (.doErr e), st)
  | .ok _ => (.ok (), invalidateTagCache st)

/-- Embedding of `CreateTask` (`client.go` lines 327-340) over
`POST /tasks/user`. -/
def CreateTask (st : Caches) (resp : Except DoError Body) (_task : TaskRec) :
    Except OpError TaskRec × Caches :=
  match resp with
  | .error e => (.error (.doErr e), st)
  | .ok body =>
    match body.asTask with
    | none => (.error .unmarshalErr, st)
    | some t => (.ok t, invalidateTaskCache st)

/-- Embedding of `UpdateTask` (`client.go` lines 398-411) over
`PUT /tasks/{id}`. -/
def UpdateTask (st : Caches) (resp : Except DoError Body) (_id : String) (_task : TaskRec) :
    Except OpError TaskRec × Caches :=
  match resp with
  | .error e => (.error (.doErr e), st)
  | .ok body =>
    match body.asTask with
    | none => (.error .unmarshalErr, st)
    | some t => (.ok t, invalidateTaskCache st)

/-- Embedding of `DeleteTask` (`client.go` lines 414-420) over
`DELETE /tasks/{id}`. -/
def DeleteTask (st : Caches) (resp : Except DoError Body) (_id : String) :
    Except OpError Unit × Caches :=
  match resp with
  | .error e => (.error (.doErr e), st)
  | .ok _ => (.ok (), invalidateTaskCache st)

/-- A sequence of `GetTag` calls issued between invalidations; the network's
answer to any bulk fetch in this window is `fetch`. Returns the final cache
state and the total number of bulk-list network calls performed. -/
def runGetTags (st : Caches) (fetch : Except DoError Body) :
    List String → Caches × Nat
  | [] => (st, 0)
  | id :: ids =>
    let r := GetTag st fetch id
    let rest := runGetTags r.2.1 fetch ids
    (rest.1, r.2.2 + rest.2)

/-- A sequence of `GetTask` calls issued between invalidations. -/
def runGetTasks (st : Caches) (fetch : Except DoError Body) :
    List String → Caches × Nat
  | [] => (st, 0)
  | id :: ids =>
    let r := GetTask st fetch id
    let rest := runGetTasks r.2.1 fetch ids
    (rest.1, r.2.2 + rest.2)

lemma goParseInt64_empty : goParseInt64 "" = none := by decide

/-- Characterization of `updateRateLimits`: each field is overwritten by its
header's parse when that parse succeeds and kept otherwise. -/
lemma updateRateLimits_eq (rs : RateState) (hr hs : String) :
    updateRateLimits rs hr hs =
      ⟨(goParseInt64 hr).getD rs.remaining, (goParseInt64 hs).getD rs.resetAt⟩ := by
  unfold updateRateLimits
  by_cases h1 : hr = "" <;> by_cases h2 : hs = "" <;>
    simp only [h1, h2, goParseInt64_empty, ne_eq, not_true_eq_false, not_false_eq_true,
      if_true, if_false, ite_true, ite_false, Option.getD_none] <;>
    cases hp : goParseInt64 hr <;> cases hq : goParseInt64 hs <;>
    simp [hp, hq]

/-- C7: `updateRateLimits` overwrites `remaining` exactly when the
X-RateLimit-Remaining header parses as an integer and `resetAt` exactly when
the X-RateLimit-Reset header parses as a Unix epoch integer; an absent
(empty) or malformed header leaves the corresponding field at its prior
value, and each field is untouched by the other header. The operation is a
total function, so it never fails the request. -/
theorem C7_rate_header_frame (rs : RateState) (hdrRemaining hdrReset : String) :
    (∀ v, goParseInt64 hdrRemaining = some v →
        (updateRateLimits rs hdrRemaining hdrReset).remaining = v)
    ∧ (goParseInt64 hdrRemaining = none →
        (updateRateLimits rs hdrRemaining hdrReset).remaining = rs.remaining)
    ∧ (∀ ts, goParseInt64 hdrReset = some ts →
        (updateRateLimits rs hdrRemaining hdrReset).resetAt = ts)
    ∧ (goParseInt64 hdrReset = none →
        (updateRateLimits rs hdrRemaining hdrReset).resetAt = rs.resetAt) := by
  rw [updateRateLimits_eq]
  exact ⟨fun v hv => by simp [hv], fun hv => by simp [hv],
    fun ts hts => by simp [hts], fun hts => by simp [hts]⟩

/-- C7 witness: with prior state `{remaining := 30, resetAt := 7}`, a
well-formed remaining header `"12"` and a malformed reset header
`"2024-01-01T00:00:00Z"` (the RFC3339 form the repository's own mock emits),
`remaining` is overwritten to 12 and `resetAt` keeps its prior value 7. -/
theorem C7_rate_header_frame_witness :
    (updateRateLimits ⟨30, 7⟩ "12" "2024-01-01T00:00:00Z").remaining = 12
    ∧ (updateRateLimits ⟨30, 7⟩ "12" "2024-01-01T00:00:00Z").resetAt = 7 :=
  ⟨(C7_rate_header_frame ⟨30, 7⟩ "12" "2024-01-01T00:00:00Z").1 12 (by decide),
   (C7_rate_header_frame ⟨30, 7⟩ "12" "2024-01-01T00:00:00Z").2.2.2 (by decide)⟩

/-- C9: the base endpoint is NOT configurable — `Config` (as defined in
`client.go`) has no base-URL field and `New` assigns the fixed
`DefaultBaseURL` to every client it builds, for every configuration. The
repository's own client tests and test utilities construct
`Config{BaseURL: server.URL}`, which this `Config` cannot express, so the
code contradicts its tests; only the defaulting half of the claim holds. -/
theorem C9_baseURL_not_configurable (cfg : Config) :
    (New cfg).baseURL = DefaultBaseURL := rfl

/-- One iteration of `doLoop` whose waits are not cancelled reduces to the
status dispatch on the attempt's outcome. -/
lemma doLoop_succ_noCancel (cfg : DoCfg) (env : Nat → AttemptEnv) (a f : Nat)
    (le : Option RetryableErr) (rs : RateState) (hc : noCancel (env a)) :
    doLoop cfg env a (f + 1) le rs =
      match (env a).outcome with
      | .transportErr m =>
          let r := doLoop cfg env (a + 1) f (some (.transport m)) rs
          ⟨r.result, r.attempts + 1, r.rate⟩
      | .readErr m resp =>
          let rs2 := updateRateLimits rs resp.hdrRemaining resp.hdrReset
          let r := doLoop cfg env (a + 1) f (some (.readBody m)) rs2
          ⟨r.result, r.attempts + 1, r.rate⟩
      | .ok resp =>
          let rs2 := updateRateLimits rs resp.hdrRemaining resp.hdrReset
          if resp.status = 429 then
            let r := doLoop cfg env (a + 1) f (some .rateLimited) rs2
            ⟨r.result, r.attempts + 1, r.rate⟩
          else if 400 ≤ resp.status then
            ⟨.error (.apiError resp.status (apiErrorText resp.status resp.body)), 1, rs2⟩
          else
            ⟨.ok resp.body, 1, rs2⟩ := by
  have hb : ¬(0 < a ∧ (env a).cancelBeforeDelay (backoffDelay cfg.baseRetryDelay a) = true) := by
    rintro ⟨-, hcb⟩
    rw [hc.1 _] at hcb
    exact Bool.noConfusion hcb
  have hw : ¬(rs.remaining < cfg.rateLimitBuffer ∧ (env a).now < rs.resetAt
      ∧ (env a).cancelRateWait = true) := by
    rintro ⟨-, -, hx⟩
    rw [hc.2] at hx
    exact Bool.noConfusion hx
  rw [doLoop, if_neg hb, if_neg hw]

/-- A non-cancelled iteration whose outcome is retryable defers to the next
iteration with the freshly classified failure recorded and one more attempt
counted. -/
lemma doLoop_step_retry (cfg : DoCfg) (env : Nat → AttemptEnv) (a f : Nat)
    (le : Option RetryableErr) (rs : RateState) (err : RetryableErr)
    (hc : noCancel (env a)) (hx : classifyRetryable (env a).outcome = some err) :
    ∃ rs2,
      (doLoop cfg env a (f + 1) le rs).result
        = (doLoop cfg env (a + 1) f (some err) rs2).result
      ∧ (doLoop cfg env a (f + 1) le rs).attempts
        = (doLoop cfg env (a + 1) f (some err) rs2).attempts + 1 := by
  rw [doLoop_succ_noCancel cfg env a f le rs hc]
  cases ho : (env a).outcome with
  | transportErr m =>
    rw [ho] at hx
    simp only [classifyRetryable, Option.some.injEq] at hx
    subst hx
    exact ⟨rs, rfl, rfl⟩
  | readErr m resp =>
    rw [ho] at hx
    simp only [classifyRetryable, Option.some.injEq] at hx
    subst hx
    exact ⟨updateRateLimits rs resp.hdrRemaining resp.hdrReset, rfl, rfl⟩
  | ok resp =>
    rw [ho] at hx
    simp only [classifyRetryable] at hx
    by_cases h429 : resp.status = 429
    · rw [if_pos h429] at hx
      simp only [Option.some.injEq] at hx
      subst hx
      refine ⟨updateRateLimits rs resp.hdrRemaining resp.hdrReset, ?_, ?_⟩ <;>
        simp only [if_pos h429]
    · rw [if_neg h429] at hx
      exact Option.noConfusion hx

/-- A non-cancelled iteration receiving a response with status below 400
returns that response's body as success after exactly this one attempt. -/
lemma doLoop_step_success (cfg : DoCfg) (env : Nat → AttemptEnv) (a f : Nat)
    (le : Option RetryableErr) (rs : RateState) (resp : HttpResponse)
    (hc : noCancel (env a)) (ho : (env a).outcome = .ok resp) (hs : resp.status < 400) :
    (doLoop cfg env a (f + 1) le rs).result = .ok resp.body
    ∧ (doLoop cfg env a (f + 1) le rs).attempts = 1 := by
  rw [doLoop_succ_noCancel cfg env a f le rs hc]
  have h429 : ¬resp.status = 429 := by omega
  have h400 : ¬400 ≤ resp.status := by omega
  simp only [ho, if_neg h429, if_neg h400]
  constructor <;> trivial

/-- A non-cancelled iteration receiving a non-429 response with status at
least 400 returns the terminal API error after exactly this one attempt. -/
lemma doLoop_step_terminal (cfg : DoCfg) (env : Nat → AttemptEnv) (a f : Nat)
    (le : Option RetryableErr) (rs : RateState) (resp : HttpResponse)
    (hc : noCancel (env a)) (ho : (env a).outcome = .ok resp)
    (h4 : 400 ≤ resp.status) (h9 : resp.status ≠ 429) :
    (doLoop cfg env a (f + 1) le rs).result
      = .error (.apiError resp.status (apiErrorText resp.status resp.body))
    ∧ (doLoop cfg env a (f + 1) le rs).attempts = 1 := by
  rw [doLoop_succ_noCancel cfg env a f le rs hc]
  simp only [ho, if_neg h9, if_pos h4]
  constructor <;> trivial

/-- Recording a retryable failure shifts the final recorded failure of a
longer all-retryable run. -/
lemma lastRetryErr_shift (env : Nat → AttemptEnv) (a f : Nat) (le : Option RetryableErr)
    (x : RetryableErr) (hx : classifyRetryable (env a).outcome = some x) :
    lastRetryErr env (a + 1) f (some x) = lastRetryErr env a (f + 1) le := by
  cases f with
  | zero => simpa [lastRetryErr] using hx.symm
  | succ f' =>
    simp only [lastRetryErr]
    have h : a + 1 + f' = a + (f' + 1) := by omega
    rw [h]

/-- Running the loop on fuel `f` worth of all-retryable, never-cancelled
iterations exhausts the fuel: `f` attempts are performed and the result wraps
the last recorded failure in the `max retries exceeded` error. -/
lemma doLoop_exhaust (cfg : DoCfg) (env : Nat → AttemptEnv) :
    ∀ (f a : Nat) (le : Option RetryableErr) (rs : RateState),
      (∀ i, i < f → noCancel (env (a + i))
        ∧ (classifyRetryable (env (a + i)).outcome).isSome = true) →
      (doLoop cfg env a f le rs).result = .error (.maxRetriesExceeded (lastRetryErr env a f le))
      ∧ (doLoop cfg env a f le rs).attempts = f := by
  intro f
  induction f with
  | zero => intro a le rs _; exact ⟨rfl, rfl⟩
  | succ f ih =>
    intro a le rs h
    have h0 := h 0 (Nat.succ_pos f)
    rw [Nat.add_zero] at h0
    obtain ⟨err, hx⟩ := Option.isSome_iff_exists.mp h0.2
    obtain ⟨rs2, h1, h2⟩ := doLoop_step_retry cfg env a f le rs err h0.1 hx
    have hsh : ∀ i, i < f → noCancel (env (a + 1 + i))
        ∧ (classifyRetryable (env (a + 1 + i)).outcome).isSome = true := by
      intro i hi
      have hh := h (i + 1) (by omega)
      have e : a + (i + 1) = a + 1 + i := by omega
      rwa [e] at hh
    have IH := ih (a + 1) (some err) rs2 hsh
    refine ⟨?_, ?_⟩
    · rw [h1, IH.1, lastRetryErr_shift env a f le err hx]
    · rw [h2, IH.2]

/-- Skipping an initial run of `k` all-retryable, never-cancelled iterations: the
loop's result is that of the loop restarted `k` attempts later with `k` fewer
units of fuel (for some recorded failure and rate state), and `k` attempts
are added to the count. -/
lemma doLoop_skipRetryable (cfg : DoCfg) (env : Nat → AttemptEnv) :
    ∀ (k a f : Nat) (le : Option RetryableErr) (rs : RateState), k < f →
      (∀ i, i < k → noCancel (env (a + i))
        ∧ (classifyRetryable (env (a + i)).outcome).isSome = true) →
      ∃ le' rs',
        (doLoop cfg env a f le rs).result = (doLoop cfg env (a + k) (f - k) le' rs').result
        ∧ (doLoop cfg env a f le rs).attempts
          = (doLoop cfg env (a + k) (f - k) le' rs').attempts + k := by
  intro k
  induction k with
  | zero => intro a f le rs _ _; exact ⟨le, rs, by simp⟩
  | succ k ih =>
    intro a f le rs hk h
    obtain ⟨f', rfl⟩ : ∃ f', f = f' + 1 := ⟨f - 1, by omega⟩
    have h0 := h 0 (Nat.succ_pos k)
    rw [Nat.add_zero] at h0
    obtain ⟨err, hx⟩ := Option.isSome_iff_exists.mp h0.2
    obtain ⟨rs2, h1, h2⟩ := doLoop_step_retry cfg env a f' le rs err h0.1 hx
    have hsh : ∀ i, i < k → noCancel (env (a + 1 + i))
        ∧ (classifyRetryable (env (a + 1 + i)).outcome).isSome = true := by
      intro i hi
      have hh := h (i + 1) (by omega)
      have e : a + (i + 1) = a + 1 + i := by omega
      rwa [e] at hh
    obtain ⟨le', rs', g1, g2⟩ := ih (a + 1) f' (some err) rs2 (by omega) hsh
    have e1 : a + 1 + k = a + (k + 1) := by omega
    have e2 : f' - k = f' + 1 - (k + 1) := by omega
    rw [e1, e2] at g1 g2
    exact ⟨le', rs', by rw [h1, g1], by rw [h2, g2]; omega⟩

/-- C1: when every attempt up to index `maxRetries` runs without its waits
being cancelled and yields a retryable failure — a transport-level error or a
429 response — the `do` loop performs exactly `maxRetries + 1` attempts
(indices 0 through `maxRetries`) and returns the `max retries exceeded`
error wrapping the failure recorded for the last attempt. -/
theorem C1_all_retryable_exhausts_retries (cfg : DoCfg) (env : Nat → AttemptEnv)
    (rs : RateState)
    (h : ∀ i, i ≤ cfg.maxRetries →
      noCancel (env i) ∧
      ((∃ m, (env i).outcome = .transportErr m) ∨
       (∃ resp, (env i).outcome = .ok resp ∧ resp.status = 429))) :
    (doRequest cfg env rs).result
      = .error (.maxRetriesExceeded (classifyRetryable (env cfg.maxRetries).outcome))
    ∧ (classifyRetryable (env cfg.maxRetries).outcome).isSome = true
    ∧ (doRequest cfg env rs).attempts = cfg.maxRetries + 1 := by
  have h' : ∀ i, i < cfg.maxRetries + 1 → noCancel (env (0 + i))
      ∧ (classifyRetryable (env (0 + i)).outcome).isSome = true := by
    intro i hi
    rw [Nat.zero_add]
    obtain ⟨hnc, hr⟩ := h i (by omega)
    refine ⟨hnc, ?_⟩
    rcases hr with ⟨m, hm⟩ | ⟨resp, hresp, h429⟩
    · rw [hm]; rfl
    · rw [hresp]; simp [classifyRetryable, h429]
  have main := doLoop_exhaust cfg env (cfg.maxRetries + 1) 0 none rs h'
  have hlast : lastRetryErr env 0 (cfg.maxRetries + 1) none
      = classifyRetryable (env cfg.maxRetries).outcome := by
    simp [lastRetryErr]
  have hsome : (classifyRetryable (env cfg.maxRetries).outcome).isSome = true := by
    have hh := (h' cfg.maxRetries (by omega)).2
    rwa [Nat.zero_add] at hh
  exact ⟨by rw [show doRequest cfg env rs = doLoop cfg env 0 (cfg.maxRetries + 1) none rs
      from rfl, main.1, hlast], hsome, main.2⟩

/-- C1 witness: with `maxRetries = 3` and every attempt answered by a 429
response, the call makes exactly 4 attempts and fails with the exhausted
error wrapping the recorded rate-limit failure. -/
theorem C1_all_retryable_exhausts_retries_witness :
    (doRequest ⟨5, 3, 1⟩
        (fun _ => ⟨0, fun _ => false, false,
          .ok ⟨429, ⟨"", some "", none, none, none, none⟩, "", ""⟩⟩) ⟨30, 0⟩).result
      = .error (.maxRetriesExceeded (some .rateLimited))
    ∧ (doRequest ⟨5, 3, 1⟩
        (fun _ => ⟨0, fun _ => false, false,
          .ok ⟨429, ⟨"", some "", none, none, none, none⟩, "", ""⟩⟩) ⟨30, 0⟩).attempts = 4 := by
  have h := C1_all_retryable_exhausts_retries ⟨5, 3, 1⟩
    (fun _ => ⟨0, fun _ => false, false,
      .ok ⟨429, ⟨"", some "", none, none, none, none⟩, "", ""⟩⟩) ⟨30, 0⟩
    (fun i _ => ⟨⟨fun _ => rfl, rfl⟩, Or.inr ⟨_, rfl, rfl⟩⟩)
  exact ⟨h.1, h.2.2⟩

/-- C2: when the first `k` attempts are answered by 429 responses, attempt
`k` (with `k ≤ maxRetries`, so `k + 1 ≤ maxRetries + 1` attempts in total)
is answered by a response with status below 400, and no wait is cancelled,
the `do` loop returns that response's body as success and performs exactly
`k + 1` attempts. -/
theorem C2_429s_then_success (cfg : DoCfg) (env : Nat → AttemptEnv) (rs : RateState)
    (k : Nat) (resp : HttpResponse)
    (hk : k ≤ cfg.maxRetries)
    (hpre : ∀ i, i < k → noCancel (env i) ∧ ∃ r, (env i).outcome = .ok r ∧ r.status = 429)
    (hc : noCancel (env k)) (ho : (env k).outcome = .ok resp) (hs : resp.status < 400) :
    (doRequest cfg env rs).result = .ok resp.body
    ∧ (doRequest cfg env rs).attempts = k + 1 := by
  have hpre' : ∀ i, i < k → noCancel (env (0 + i))
      ∧ (classifyRetryable (env (0 + i)).outcome).isSome = true := by
    intro i hi
    rw [Nat.zero_add]
    obtain ⟨hnc, r, hr, h429⟩ := hpre i hi
    exact ⟨hnc, by rw [hr]; simp [classifyRetryable, h429]⟩
  obtain ⟨le', rs', h1, h2⟩ :=
    doLoop_skipRetryable cfg env k 0 (cfg.maxRetries + 1) none rs (by omega) hpre'
  rw [Nat.zero_add] at h1 h2
  have hf : cfg.maxRetries + 1 - k = (cfg.maxRetries - k) + 1 := by omega
  rw [hf] at h1 h2
  have step := doLoop_step_success cfg env k (cfg.maxRetries - k) le' rs' resp hc ho hs
  exact ⟨by rw [show doRequest cfg env rs = doLoop cfg env 0 (cfg.maxRetries + 1) none rs
      from rfl, h1, step.1],
    by rw [show doRequest cfg env rs = doLoop cfg env 0 (cfg.maxRetries + 1) none rs
      from rfl, h2, step.2]; omega⟩

/-- C2 witness: two 429 responses followed by a 200 yield success with
exactly 3 attempts. -/
theorem C2_429s_then_success_witness :
    (doRequest ⟨5, 5, 1⟩
        (fun i => if i < 2
          then ⟨0, fun _ => false, false,
            .ok ⟨429, ⟨"", some "", none, none, none, none⟩, "", ""⟩⟩
          else ⟨0, fun _ => false, false,
            .ok ⟨200, ⟨"payload", some "", none, none, none, none⟩, "", ""⟩⟩) ⟨30, 0⟩).result
      = .ok ⟨"payload", some "", none, none, none, none⟩
    ∧ (doRequest ⟨5, 5, 1⟩
        (fun i => if i < 2
          then ⟨0, fun _ => false, false,
            .ok ⟨429, ⟨"", some "", none, none, none, none⟩, "", ""⟩⟩
          else ⟨0, fun _ => false, false,
            .ok ⟨200, ⟨"payload", some "", none, none, none, none⟩, "", ""⟩⟩) ⟨30, 0⟩).attempts
      = 3 := by
  have h := C2_429s_then_success ⟨5, 5, 1⟩
    (fun i => if i < 2
      then ⟨0, fun _ => false, false,
        .ok ⟨429, ⟨"", some "", none, none, none, none⟩, "", ""⟩⟩
      else ⟨0, fun _ => false, false,
        .ok ⟨200, ⟨"payload", some "", none, none, none, none⟩, "", ""⟩⟩) ⟨30, 0⟩
    2 ⟨200, ⟨"payload", some "", none, none, none, none⟩, "", ""⟩
    (by decide)
    (by intro i hi
        match i, hi with
        | 0, _ => exact ⟨⟨fun _ => rfl, rfl⟩, _, rfl, rfl⟩
        | 1, _ => exact ⟨⟨fun _ => rfl, rfl⟩, _, rfl, rfl⟩)
    ⟨fun _ => rfl, rfl⟩ rfl (by decide)
  exact h

/-- The terminal error text spelled out: the status code between parentheses
followed by the envelope's non-empty `message` when the body parses, else the
raw body text. -/
lemma apiErrorText_eq (s : Nat) (b : Body) :
    apiErrorText s b = "API error (" ++ toString s ++ "): "
      ++ (match b.envMessage with
          | some m => if m = "" then b.raw else m
          | none => b.raw) := by
  unfold apiErrorText
  cases h : b.envMessage with
  | none => rfl
  | some m =>
    by_cases hm : m = "" <;> simp [hm]

/-- C3: once an attempt (here attempt `k`, after `k` retryable, uncancelled
attempts) receives a response with status at least 400 and different from
429, the `do` loop returns immediately — exactly `k + 1` attempts, no retry —
with a terminal error whose text carries the status code and the envelope's
`message` when the body parses as the envelope with a non-empty message,
otherwise the raw body text. -/
theorem C3_terminal_error_no_retry (cfg : DoCfg) (env : Nat → AttemptEnv) (rs : RateState)
    (k : Nat) (resp : HttpResponse)
    (hk : k ≤ cfg.maxRetries)
    (hpre : ∀ i, i < k → noCancel (env i)
      ∧ (classifyRetryable (env i).outcome).isSome = true)
    (hc : noCancel (env k)) (ho : (env k).outcome = .ok resp)
    (h4 : 400 ≤ resp.status) (h9 : resp.status ≠ 429) :
    (doRequest cfg env rs).result
      = .error (.apiError resp.status
          ("API error (" ++ toString resp.status ++ "): "
            ++ (match resp.body.envMessage with
                | some m => if m = "" then resp.body.raw else m
                | none => resp.body.raw)))
    ∧ (doRequest cfg env rs).attempts = k + 1 := by
  have hpre' : ∀ i, i < k → noCancel (env (0 + i))
      ∧ (classifyRetryable (env (0 + i)).outcome).isSome = true := by
    intro i hi
    rw [Nat.zero_add]
    exact hpre i hi
  obtain ⟨le', rs', h1, h2⟩ :=
    doLoop_skipRetryable cfg env k 0 (cfg.maxRetries + 1) none rs (by omega) hpre'
  rw [Nat.zero_add] at h1 h2
  have hf : cfg.maxRetries + 1 - k = (cfg.maxRetries - k) + 1 := by omega
  rw [hf] at h1 h2
  have step := doLoop_step_terminal cfg env k (cfg.maxRetries - k) le' rs' resp hc ho h4 h9
  refine ⟨?_, ?_⟩
  · rw [show doRequest cfg env rs = doLoop cfg env 0 (cfg.maxRetries + 1) none rs from rfl,
      h1, step.1, apiErrorText_eq]
  · rw [show doRequest cfg env rs = doLoop cfg env 0 (cfg.maxRetries + 1) none rs from rfl,
      h2, step.2]
    omega

/-- C3 witness: a single 400 response whose body parses with message
`Invalid input` yields exactly 1 attempt and the terminal error text
`API error (400): Invalid input`. -/
theorem C3_terminal_error_no_retry_witness :
    (doRequest ⟨5, 5, 1⟩
        (fun _ => ⟨0, fun _ => false, false,
          .ok ⟨400, ⟨"rawbody", some "Invalid input", none, none, none, none⟩, "", ""⟩⟩)
        ⟨30, 0⟩).result
      = .error (.apiError 400 "API error (400): Invalid input")
    ∧ (doRequest ⟨5, 5, 1⟩
        (fun _ => ⟨0, fun _ => false, false,
          .ok ⟨400, ⟨"rawbody", some "Invalid input", none, none, none, none⟩, "", ""⟩⟩)
        ⟨30, 0⟩).attempts = 1 := by
  have h := C3_terminal_error_no_retry ⟨5, 5, 1⟩
    (fun _ => ⟨0, fun _ => false, false,
      .ok ⟨400, ⟨"rawbody", some "Invalid input", none, none, none, none⟩, "", ""⟩⟩)
    ⟨30, 0⟩ 0 ⟨400, ⟨"rawbody", some "Invalid input", none, none, none, none⟩, "", ""⟩
    (by decide) (fun i hi => absurd hi (by omega)) ⟨fun _ => rfl, rfl⟩ rfl
    (by decide) (by decide)
  refine ⟨?_, h.2⟩
  rw [h.1]
  rfl

/-- C8: whenever the `do` loop is suspended at a wait point and the caller's
context fires there, the call returns the cancellation error at once, with
zero further network attempts and the rate state untouched. First conjunct:
the backoff `select` before any attempt `a ≥ 1`, waiting
`baseDelay * 2^(a-1)`. Second conjunct: the rate-limit wait, entered when
`remaining < buffer` and `now < resetAt` (for `a ≥ 1` only reached when the
backoff wait was not itself cancelled). -/
theorem C8_cancellation_returns_ctx_error (cfg : DoCfg) (env : Nat → AttemptEnv)
    (a f : Nat) (le : Option RetryableErr) (rs : RateState) (hf : f ≠ 0) :
    (0 < a → (env a).cancelBeforeDelay (backoffDelay cfg.baseRetryDelay a) = true →
      doLoop cfg env a f le rs = ⟨.error .ctxCancelled, 0, rs⟩)
    ∧ ((0 < a → (env a).cancelBeforeDelay (backoffDelay cfg.baseRetryDelay a) = false) →
       rs.remaining < cfg.rateLimitBuffer → (env a).now < rs.resetAt →
       (env a).cancelRateWait = true →
       doLoop cfg env a f le rs = ⟨.error .ctxCancelled, 0, rs⟩) := by
  obtain ⟨f', rfl⟩ : ∃ f', f = f' + 1 := ⟨f - 1, by omega⟩
  constructor
  · intro ha hcb
    rw [doLoop, if_pos ⟨ha, hcb⟩]
  · intro h1 h2 h3 h4
    have hb : ¬(0 < a ∧ (env a).cancelBeforeDelay (backoffDelay cfg.baseRetryDelay a) = true) := by
      rintro ⟨hpa, hcb⟩
      rw [h1 hpa] at hcb
      exact Bool.noConfusion hcb
    rw [doLoop, if_neg hb, if_pos ⟨h2, h3, h4⟩]

/-- C8 witness: cancellation during the backoff wait before attempt 1 (left)
and during the rate-limit wait at attempt 0 with a depleted budget (right)
each return the context error with no attempt performed. -/
theorem C8_cancellation_returns_ctx_error_witness :
    doLoop ⟨5, 5, 2⟩
      (fun _ => ⟨0, fun _ => true, false,
        .ok ⟨200, ⟨"", some "", none, none, none, none⟩, "", ""⟩⟩) 1 5 none ⟨30, 0⟩
      = ⟨.error .ctxCancelled, 0, ⟨30, 0⟩⟩
    ∧ doLoop ⟨5, 5, 2⟩
      (fun _ => ⟨0, fun _ => false, true,
        .ok ⟨200, ⟨"", some "", none, none, none, none⟩, "", ""⟩⟩) 0 6 none ⟨0, 10⟩
      = ⟨.error .ctxCancelled, 0, ⟨0, 10⟩⟩ := by
  constructor
  · exact (C8_cancellation_returns_ctx_error ⟨5, 5, 2⟩
      (fun _ => ⟨0, fun _ => true, false,
        .ok ⟨200, ⟨"", some "", none, none, none, none⟩, "", ""⟩⟩) 1 5 none ⟨30, 0⟩
      (by decide)).1 (by decide) rfl
  · exact (C8_cancellation_returns_ctx_error ⟨5, 5, 2⟩
      (fun _ => ⟨0, fun _ => false, true,
        .ok ⟨200, ⟨"", some "", none, none, none, none⟩, "", ""⟩⟩) 0 6 none ⟨0, 10⟩
      (by decide)).2 (fun h => absurd h (by decide)) (by decide) (by decide) rfl

/-- A `GetTag` against a populated cache leaves the state unchanged and
performs no network call, hit or miss. -/
lemma GetTag_populated (st : Caches) (m : TagMap) (h : st.tagCache = some m)
    (fetch : Except DoError Body) (id : String) :
    (GetTag st fetch id).2.1 = st ∧ (GetTag st fetch id).2.2 = 0 := by
  simp only [GetTag, populateTagCache, h]
  cases hl : lookupTag m id <;> simp [hl]

/-- A `GetTag` against an unpopulated cache whose bulk fetch succeeds and
decodes performs exactly one network call and publishes the built map. -/
lemma GetTag_unpopulated_success (st : Caches) (h : st.tagCache = none)
    (body : Body) (tags : List Tag) (hb : body.asTags = some tags) (id : String) :
    (GetTag st (Except.ok body) id).2.1 = { st with tagCache := some (buildTagMap tags) }
    ∧ (GetTag st (Except.ok body) id).2.2 = 1 := by
  simp only [GetTag, populateTagCache, h, hb]
  cases hl : lookupTag (buildTagMap tags) id <;> simp [hl]

/-- A `GetTag` against an unpopulated cache performs exactly one network
call whatever the fetch returns. -/
lemma GetTag_unpopulated_calls (st : Caches) (h : st.tagCache = none)
    (fetch : Except DoError Body) (id : String) :
    (GetTag st fetch id).2.2 = 1 := by
  simp only [GetTag, populateTagCache, h]
  cases fetch with
  | error e => rfl
  | ok body =>
    cases hb : body.asTags with
    | none => simp [hb]
    | some tags =>
      simp only [hb]
      cases hl : lookupTag (buildTagMap tags) id <;> simp [hl]

/-- A run of `GetTag` calls against a populated cache performs no network
call and leaves the state unchanged. -/
lemma runGetTags_populated (fetch : Except DoError Body) :
    ∀ (ids : List String) (st : Caches) (m : TagMap), st.tagCache = some m →
      (runGetTags st fetch ids).1 = st ∧ (runGetTags st fetch ids).2 = 0 := by
  intro ids
  induction ids with
  | nil => intro st m h; exact ⟨rfl, rfl⟩
  | cons id ids ih =>
    intro st m h
    have g := GetTag_populated st m h fetch id
    constructor
    · show (runGetTags (GetTag st fetch id).2.1 fetch ids).1 = st
      rw [g.1]
      exact (ih st m h).1
    · show (GetTag st fetch id).2.2 + (runGetTags (GetTag st fetch id).2.1 fetch ids).2 = 0
      rw [g.1, g.2, (ih st m h).2]

/-- A `GetTask` against a populated cache leaves the state unchanged and
performs no network call, hit or miss. -/
lemma GetTask_populated (st : Caches) (m : TaskMap) (h : st.taskCache = some m)
    (fetch : Except DoError Body) (id : String) :
    (GetTask st fetch id).2.1 = st ∧ (GetTask st fetch id).2.2 = 0 := by
  simp only [GetTask, populateTaskCache, h]
  cases hl : lookupTask m id <;> simp [hl]

/-- A `GetTask` against an unpopulated cache whose bulk fetch succeeds and
decodes performs exactly one network call and publishes the built map. -/
lemma GetTask_unpopulated_success (st : Caches) (h : st.taskCache = none)
    (body : Body) (tasks : List TaskRec) (hb : body.asTasks = some tasks) (id : String) :
    (GetTask st (Except.ok body) id).2.1 = { st with taskCache := some (buildTaskMap tasks) }
    ∧ (GetTask st (Except.ok body) id).2.2 = 1 := by
  simp only [GetTask, populateTaskCache, h, hb]
  cases hl : lookupTask (buildTaskMap tasks) id <;> simp [hl]

/-- A `GetTask` against an unpopulated cache performs exactly one network
call whatever the fetch returns. -/
lemma GetTask_unpopulated_calls (st : Caches) (h : st.taskCache = none)
    (fetch : Except DoError Body) (id : String) :
    (GetTask st fetch id).2.2 = 1 := by
  simp only [GetTask, populateTaskCache, h]
  cases fetch with
  | error e => rfl
  | ok body =>
    cases hb : body.asTasks with
    | none => simp [hb]
    | some tasks =>
      simp only [hb]
      cases hl : lookupTask (buildTaskMap tasks) id <;> simp [hl]

/-- A run of `GetTask` calls against a populated cache performs no network
call and leaves the state unchanged. -/
lemma runGetTasks_populated (fetch : Except DoError Body) :
    ∀ (ids : List String) (st : Caches) (m : TaskMap), st.taskCache = some m →
      (runGetTasks st fetch ids).1 = st ∧ (runGetTasks st fetch ids).2 = 0 := by
  intro ids
  induction ids with
  | nil => intro st m h; exact ⟨rfl, rfl⟩
  | cons id ids ih =>
    intro st m h
    have g := GetTask_populated st m h fetch id
    constructor
    · show (runGetTasks (GetTask st fetch id).2.1 fetch ids).1 = st
      rw [g.1]
      exact (ih st m h).1
    · show (GetTask st fetch id).2.2 + (runGetTasks (GetTask st fetch id).2.1 fetch ids).2 = 0
      rw [g.1, g.2, (ih st m h).2]

/-- C4: between invalidations, at most one bulk-list network call is made per
entity kind to serve any sequence of `getByID` calls, provided the bulk fetch
succeeds and decodes. From any state, a run of `GetTag` (resp. `GetTask`)
calls performs at most one list call; from a populated cache it performs
none, whatever the ids looked up; and a populate attempt that finds the cache
already populated observes the double-checked state and skips the network
call entirely. -/
theorem C4_at_most_one_bulk_list_call
    (bodyTag : Body) (tags : List Tag) (hbt : bodyTag.asTags = some tags)
    (bodyTask : Body) (tasks : List TaskRec) (hbk : bodyTask.asTasks = some tasks) :
    (∀ st ids, (runGetTags st (Except.ok bodyTag) ids).2 ≤ 1)
    ∧ (∀ st m ids, st.tagCache = some m → (runGetTags st (Except.ok bodyTag) ids).2 = 0)
    ∧ (∀ st m fetch, st.tagCache = some m → populateTagCache st fetch = (.ok (), st, 0))
    ∧ (∀ st ids, (runGetTasks st (Except.ok bodyTask) ids).2 ≤ 1)
    ∧ (∀ st m ids, st.taskCache = some m → (runGetTasks st (Except.ok bodyTask) ids).2 = 0)
    ∧ (∀ st m fetch, st.taskCache = some m → populateTaskCache st fetch = (.ok (), st, 0)) := by
  refine ⟨?_, ?_, ?_, ?_, ?_, ?_⟩
  · intro st ids
    cases hst : st.tagCache with
    | some m =>
      rw [(runGetTags_populated (Except.ok bodyTag) ids st m hst).2]
      exact Nat.zero_le 1
    | none =>
      cases ids with
      | nil => exact Nat.zero_le 1
      | cons id ids =>
        have g := GetTag_unpopulated_success st hst bodyTag tags hbt id
        show (GetTag st (Except.ok bodyTag) id).2.2
          + (runGetTags (GetTag st (Except.ok bodyTag) id).2.1 (Except.ok bodyTag) ids).2 ≤ 1
        rw [g.1, g.2,
          (runGetTags_populated (Except.ok bodyTag) ids _ (buildTagMap tags) rfl).2]
  · intro st m ids h
    exact (runGetTags_populated (Except.ok bodyTag) ids st m h).2
  · intro st m fetch h
    simp [populateTagCache, h]
  · intro st ids
    cases hst : st.taskCache with
    | some m =>
      rw [(runGetTasks_populated (Except.ok bodyTask) ids st m hst).2]
      exact Nat.zero_le 1
    | none =>
      cases ids with
      | nil => exact Nat.zero_le 1
      | cons id ids =>
        have g := GetTask_unpopulated_success st hst bodyTask tasks hbk id
        show (GetTask st (Except.ok bodyTask) id).2.2
          + (runGetTasks (GetTask st (Except.ok bodyTask) id).2.1 (Except.ok bodyTask) ids).2 ≤ 1
        rw [g.1, g.2,
          (runGetTasks_populated (Except.ok bodyTask) ids _ (buildTaskMap tasks) rfl).2]
  · intro st m ids h
    exact (runGetTasks_populated (Except.ok bodyTask) ids st m h).2
  · intro st m fetch h
    simp [populateTaskCache, h]

/-- C4 witness: two sequential lookups of distinct ids from a cold start make
at most one bulk-list call, for tags and for tasks alike. -/
theorem C4_at_most_one_bulk_list_call_witness :
    (runGetTags ⟨none, none⟩
        (Except.ok ⟨"", some "", none,
          some [⟨"tag-1", "work"⟩, ⟨"tag-2", "exercise"⟩], none, none⟩)
        ["tag-1", "tag-2"]).2 ≤ 1
    ∧ (runGetTasks ⟨none, none⟩
        (Except.ok ⟨"", some "", none, none, none,
          some [⟨"task-1", "habit", "Exercise"⟩]⟩)
        ["task-1", "task-2"]).2 ≤ 1 := by
  have h := C4_at_most_one_bulk_list_call
    ⟨"", some "", none, some [⟨"tag-1", "work"⟩, ⟨"tag-2", "exercise"⟩], none, none⟩
    [⟨"tag-1", "work"⟩, ⟨"tag-2", "exercise"⟩] rfl
    ⟨"", some "", none, none, none, some [⟨"task-1", "habit", "Exercise"⟩]⟩
    [⟨"task-1", "habit", "Exercise"⟩] rfl
  exact ⟨h.1 ⟨none, none⟩ ["tag-1", "tag-2"], h.2.2.2.1 ⟨none, none⟩ ["task-1", "task-2"]⟩

/-- C5: every create, update or delete of a tag (resp. task) that returns
success leaves the corresponding cache reset to the unpopulated state, and a
`getByID` issued against an unpopulated cache performs a fresh bulk-list
network call — so a post-mutation lookup never reads the pre-mutation cache
contents. -/
theorem C5_mutations_invalidate_cache (st : Caches) (resp : Except DoError Body) :
    (∀ nm t, (CreateTag st resp nm).1 = .ok t → (CreateTag st resp nm).2.tagCache = none)
    ∧ (∀ id nm t, (UpdateTag st resp id nm).1 = .ok t → (UpdateTag st resp id nm).2.tagCache = none)
    ∧ (∀ id, (DeleteTag st resp id).1 = .ok () → (DeleteTag st resp id).2.tagCache = none)
    ∧ (∀ task t, (CreateTask st resp task).1 = .ok t → (CreateTask st resp task).2.taskCache = none)
    ∧ (∀ id task t,
        (UpdateTask st resp id task).1 = .ok t → (UpdateTask st resp id task).2.taskCache = none)
    ∧ (∀ id, (DeleteTask st resp id).1 = .ok () → (DeleteTask st resp id).2.taskCache = none)
    ∧ (∀ st' : Caches, ∀ fetch id, st'.tagCache = none → (GetTag st' fetch id).2.2 = 1)
    ∧ (∀ st' : Caches, ∀ fetch id, st'.taskCache = none → (GetTask st' fetch id).2.2 = 1) := by
  refine ⟨?_, ?_, ?_, ?_, ?_, ?_, ?_, ?_⟩
  · intro nm t h
    cases resp with
    | error e => simp [CreateTag] at h
    | ok body =>
      cases hb : body.asTag with
      | none => simp [CreateTag, hb] at h
      | some t' => simp [CreateTag, hb, invalidateTagCache]
  · intro id nm t h
    cases resp with
    | error e => simp [UpdateTag] at h
    | ok body =>
      cases hb : body.asTag with
      | none => simp [UpdateTag, hb] at h
      | some t' => simp [UpdateTag, hb, invalidateTagCache]
  · intro id h
    cases resp with
    | error e => simp [DeleteTag] at h
    | ok body => simp [DeleteTag, invalidateTagCache]
  · intro task t h
    cases resp with
    | error e => simp [CreateTask] at h
    | ok body =>
      cases hb : body.asTask with
      | none => simp [CreateTask, hb] at h
      | some t' => simp [CreateTask, hb, invalidateTaskCache]
  · intro id task t h
    cases resp with
    | error e => simp [UpdateTask] at h
    | ok body =>
      cases hb : body.asTask with
      | none => simp [UpdateTask, hb] at h
      | some t' => simp [UpdateTask, hb, invalidateTaskCache]
  · intro id h
    cases resp with
    | error e => simp [DeleteTask] at h
    | ok body => simp [DeleteTask, invalidateTaskCache]
  · intro st' fetch id h
    exact GetTag_unpopulated_calls st' h fetch id
  · intro st' fetch id h
    exact GetTask_unpopulated_calls st' h fetch id

/-- C5 witness: a successful `CreateTag` against a populated tag cache resets
it to unpopulated, and the next `GetTag` from an unpopulated cache performs
exactly one bulk-list call. -/
theorem C5_mutations_invalidate_cache_witness :
    (CreateTag ⟨some [("tag-1", ⟨"tag-1", "work"⟩)], some []⟩
        (Except.ok ⟨"", some "", some ⟨"tag-2", "new"⟩, none, none, none⟩)
        "new").2.tagCache = none
    ∧ (GetTag ⟨none, none⟩
        (Except.ok ⟨"", some "", none, some [⟨"tag-1", "work"⟩], none, none⟩)
        "tag-1").2.2 = 1 := by
  have h := C5_mutations_invalidate_cache ⟨some [("tag-1", ⟨"tag-1", "work"⟩)], some []⟩
    (Except.ok ⟨"", some "", some ⟨"tag-2", "new"⟩, none, none, none⟩)
  exact ⟨h.1 "new" ⟨"tag-2", "new"⟩ rfl,
    h.2.2.2.2.2.2.1 ⟨none, none⟩
      (Except.ok ⟨"", some "", none, some [⟨"tag-1", "work"⟩], none, none⟩) "tag-1" rfl⟩

/-- C6: a `getByID` whose cache population fails returns exactly that
population error (state untouched, the one failed bulk call counted), never a
not-found error; and whenever `GetTag`/`GetTask` does return its not-found
error for an id, the cache it leaves behind is populated and the id is absent
from it — not-found arises only after a successful population. -/
theorem C6_population_error_not_hidden :
    (∀ (st : Caches) (e : DoError) (id : String), st.tagCache = none →
       GetTag st (Except.error e) id = (.error (.doErr e), st, 1))
    ∧ (∀ (st : Caches) (fetch : Except DoError Body) (id : String),
        (GetTag st fetch id).1 = .error (.notFound "tag" id) →
        ∃ m, (GetTag st fetch id).2.1.tagCache = some m ∧ lookupTag m id = none)
    ∧ (∀ (st : Caches) (e : DoError) (id : String), st.taskCache = none →
       GetTask st (Except.error e) id = (.error (.doErr e), st, 1))
    ∧ (∀ (st : Caches) (fetch : Except DoError Body) (id : String),
        (GetTask st fetch id).1 = .error (.notFound "task" id) →
        ∃ m, (GetTask st fetch id).2.1.taskCache = some m ∧ lookupTask m id = none) := by
  refine ⟨?_, ?_, ?_, ?_⟩
  · intro st e id h
    simp [GetTag, populateTagCache, h]
  · intro st fetch id h
    cases hst : st.tagCache with
    | some m =>
      cases hl : lookupTag m id with
      | some t =>
        have hr : (GetTag st fetch id).1 = .ok t := by simp [GetTag, hst, hl]
        rw [hr] at h
        simp at h
      | none =>
        refine ⟨m, ?_, hl⟩
        rw [(GetTag_populated st m hst fetch id).1, hst]
    | none =>
      cases fetch with
      | error e =>
        have hr : (GetTag st (Except.error e) id).1 = .error (.doErr e) := by
          simp [GetTag, populateTagCache, hst]
        rw [hr] at h
        simp at h
      | ok body =>
        cases hb : body.asTags with
        | none =>
          have hr : (GetTag st (Except.ok body) id).1 = .error .unmarshalErr := by
            simp [GetTag, populateTagCache, hst, hb]
          rw [hr] at h
          simp at h
        | some tags =>
          cases hl : lookupTag (buildTagMap tags) id with
          | some t =>
            have hr : (GetTag st (Except.ok body) id).1 = .ok t := by
              simp [GetTag, populateTagCache, hst, hb, hl]
            rw [hr] at h
            simp at h
          | none =>
            refine ⟨buildTagMap tags, ?_, hl⟩
            rw [(GetTag_unpopulated_success st hst body tags hb id).1]
  · intro st e id h
    simp [GetTask, populateTaskCache, h]
  · intro st fetch id h
    cases hst : st.taskCache with
    | some m =>
      cases hl : lookupTask m id with
      | some t =>
        have hr : (GetTask st fetch id).1 = .ok t := by simp [GetTask, hst, hl]
        rw [hr] at h
        simp at h
      | none =>
        refine ⟨m, ?_, hl⟩
        rw [(GetTask_populated st m hst fetch id).1, hst]
    | none =>
      cases fetch with
      | error e =>
        have hr : (GetTask st (Except.error e) id).1 = .error (.doErr e) := by
          simp [GetTask, populateTaskCache, hst]
        rw [hr] at h
        simp at h
      | ok body =>
        cases hb : body.asTasks with
        | none =>
          have hr : (GetTask st (Except.ok body) id).1 = .error .unmarshalErr := by
            simp [GetTask, populateTaskCache, hst, hb]
          rw [hr] at h
          simp at h
        | some tasks =>
          cases hl : lookupTask (buildTaskMap tasks) id with
          | some t =>
            have hr : (GetTask st (Except.ok body) id).1 = .ok t := by
              simp [GetTask, populateTaskCache, hst, hb, hl]
            rw [hr] at h
            simp at h
          | none =>
            refine ⟨buildTaskMap tasks, ?_, hl⟩
            rw [(GetTask_unpopulated_success st hst body tasks hb id).1]

/-- C6 witness: a failed bulk fetch surfaces as that very error (here a
cancellation) rather than not-found, and a not-found outcome (lookup of
`tag-9` against a populated-empty cache) indeed leaves a populated cache not
containing the id. -/
theorem C6_population_error_not_hidden_witness :
    GetTag ⟨none, none⟩ (Except.error .ctxCancelled) "tag-9"
      = (.error (.doErr .ctxCancelled), ⟨none, none⟩, 1)
    ∧ ∃ m, (GetTag ⟨some [], none⟩
        (Except.ok ⟨"", some "", none, none, none, none⟩) "tag-9").2.1.tagCache = some m
      ∧ lookupTag m "tag-9" = none :=
  ⟨C6_population_error_not_hidden.1 ⟨none, none⟩ .ctxCancelled "tag-9" rfl,
   C6_population_error_not_hidden.2.1 ⟨some [], none⟩
     (Except.ok ⟨"", some "", none, none, none, none⟩) "tag-9" rfl⟩

/-- C10: a create or update whose HTTP exchange succeeded but whose body does
not decode as the typed envelope returns the unmarshaling error and leaves
the whole cache state — in particular the corresponding entity cache —
exactly as it was: invalidation runs only after a successful decode, so the
pre-mutation cache contents survive even though the remote mutation may have
been applied. -/
theorem C10_unmarshal_failure_skips_invalidation (st : Caches) (body : Body) :
    (body.asTag = none →
      ∀ nm, CreateTag st (Except.ok body) nm = (.error .unmarshalErr, st))
    ∧ (body.asTag = none →
      ∀ id nm, UpdateTag st (Except.ok body) id nm = (.error .unmarshalErr, st))
    ∧ (body.asTask = none →
      ∀ task, CreateTask st (Except.ok body) task = (.error .unmarshalErr, st))
    ∧ (body.asTask = none →
      ∀ id task, UpdateTask st (Except.ok body) id task = (.error .unmarshalErr, st)) := by
  refine ⟨?_, ?_, ?_, ?_⟩
  · intro h nm
    simp [CreateTag, h]
  · intro h id nm
    simp [UpdateTag, h]
  · intro h task
    simp [CreateTask, h]
  · intro h id task
    simp [UpdateTask, h]

/-- C10 witness: an undecodable create-tag response leaves the populated tag
cache in place while returning the unmarshal error. -/
theorem C10_unmarshal_failure_skips_invalidation_witness :
    CreateTag ⟨some [("tag-1", ⟨"tag-1", "work"⟩)], some []⟩
        (Except.ok ⟨"not json", none, none, none, none, none⟩) "new"
      = (.error .unmarshalErr, ⟨some [("tag-1", ⟨"tag-1", "work"⟩)], some []⟩) :=
  (C10_unmarshal_failure_skips_invalidation
    ⟨some [("tag-1", ⟨"tag-1", "work"⟩)], some []⟩
    ⟨"not json", none, none, none, none, none⟩).1 rfl "new"
